import Mathlib

/-!
Verification of the flow-voice-chatbot-demo relay: a shallow embedding of
`src/server.ts` (trip store, broadcast, tool-call handling, connection
lifecycle, client-message handling) and `src/public/app.js` (PCM16 encode
and decode, microphone send guard, playback queue), with theorems settling
the specified properties.
-/

namespace FlowVoice

/-! ## Trip store and tool-call handling (`src/server.ts`) -/

/-- Arguments of a `saveTrip` tool invocation, mirroring the declared
parameters (`cliente`, `autista`, `destinazione`, `tipo_viaggio`, `data`
required; `partenza` optional).  A missing field is `none`. -/
structure TripArgs where
  cliente : Option String
  autista : Option String
  destinazione : Option String
  tipo_viaggio : Option String
  data : Option String
  partenza : Option String
deriving DecidableEq, Repr

/-- `true` exactly when all five required `saveTrip` fields are present. -/
def requiredPresent (a : TripArgs) : Bool :=
  a.cliente.isSome && a.autista.isSome && a.destinazione.isSome &&
    a.tipo_viaggio.isSome && a.data.isSome

/-- A `TripArgs` with every field absent. -/
def emptyTripArgs : TripArgs := ⟨none, none, none, none, none, none⟩

/-- One entry of `msg.toolCall.functionCalls`. -/
structure FunctionCall where
  name : String
  id : String
  args : TripArgs
deriving DecidableEq, Repr

/-- One entry pushed onto `responses` in the tool-call branch. -/
structure ToolResponse where
  name : String
  id : String
  response : String
deriving DecidableEq, Repr

/-- `collectedTrips.push(args)`. -/
def pushTrip (trips : List TripArgs) (r : TripArgs) : List TripArgs :=
  trips ++ [r]

/-- The `for (const call of functionCalls)` loop of the `onmessage`
tool-call branch: for each call named `saveTrip` it pushes the arguments
onto the store, broadcasts the updated store, and records a success
response; any other call is skipped.  Returns the final store, the list of
store snapshots that were broadcast (in order), and the responses sent
back upstream. -/
def processCalls :
    List FunctionCall → List TripArgs →
      List TripArgs × List (List TripArgs) × List ToolResponse
  | [], trips => (trips, [], [])
  | call :: rest, trips =>
    if call.name = "saveTrip" then
      let next := pushTrip trips call.args
      let res := processCalls rest next
      (res.1, next :: res.2.1,
        { name := "saveTrip", id := call.id,
          response := "Trip saved successfully." } :: res.2.2)
    else
      processCalls rest trips

/-! ## Broadcast (`broadcastTrips` in `src/server.ts`) -/

/-- `ws` readyState values. -/
inductive ReadyState
  | CONNECTING
  | OPEN
  | CLOSING
  | CLOSED
deriving DecidableEq, Repr

/-- A client socket as seen by `wss.clients`. -/
structure ClientSocket where
  sockId : Nat
  readyState : ReadyState
deriving DecidableEq, Repr

/-- Server-to-client JSON envelopes. -/
inductive ServerMsg
  | status (message : String)
  | log (message : String)
  | tripsUpdate (trips : List TripArgs)
  | audio (data : String)
deriving DecidableEq, Repr

/-- `client.send`: succeeds only on an open socket, otherwise errors
(`ws` throws when sending on a non-open socket). -/
def wsSendChecked (c : ClientSocket) (m : ServerMsg) :
    Except String (Nat × ServerMsg) :=
  if c.readyState = ReadyState.OPEN then Except.ok (c.sockId, m)
  else Except.error "WebSocket is not open"

/-- `broadcastTrips`: iterates over `wss.clients` and sends the
`trips_update` envelope only to clients whose `readyState` is `OPEN`. -/
def broadcastTrips (clients : List ClientSocket)
    (collectedTrips : List TripArgs) :
    List (Except String (Nat × ServerMsg)) :=
  clients.filterMap fun c =>
    if c.readyState = ReadyState.OPEN then
      some (wsSendChecked c (ServerMsg.tripsUpdate collectedTrips))
    else none

/-! ## Connection lifecycle (`wss.on('connection')` in `src/server.ts`)

The handler performs two successive `ai.live.connect` calls: the first
(inside a `try`) assigns `session`, and the second (outside any `try`,
with callbacks) reassigns `session`.  `ws.on('close')` closes whatever
`session` holds at that point.  Sessions are identified by abstract ids;
a connect attempt is `some id` on success and `none` on failure. -/

/-- Outcome of running the connection handler's setup phase. -/
inductive SetupOutcome
  /-- The first connect threw: the catch block runs `ws.close()` and
  returns; no upstream session was opened. -/
  | closedEarly
  /-- The second connect rejected outside any `try`: the async handler
  aborts, leaving the listed upstream sessions open. -/
  | aborted (openedSessions : List Nat)
  /-- Both connects succeeded: `openedSessions` lists every upstream
  session opened for this client, `sessionVar` is the value left in the
  `session` variable. -/
  | ready (openedSessions : List Nat) (sessionVar : Nat)
deriving DecidableEq, Repr

/-- The setup phase of the connection handler, as written: connect once
(caught), then connect again (uncaught), overwriting `session`. -/
def connectionSetup (r1 r2 : Option Nat) : SetupOutcome :=
  match r1 with
  | none => SetupOutcome.closedEarly
  | some s1 =>
    match r2 with
    | none => SetupOutcome.aborted [s1]
    | some s2 => SetupOutcome.ready [s1, s2] s2

/-- Upstream sessions opened for the client during setup. -/
def openedSessions : SetupOutcome → List Nat
  | SetupOutcome.closedEarly => []
  | SetupOutcome.aborted l => l
  | SetupOutcome.ready l _ => l

/-- Upstream sessions closed by the `ws.on('close')` handler: only the
current value of the `session` variable (registered on the ready path). -/
def closeHandlerCloses : SetupOutcome → List Nat
  | SetupOutcome.ready _ sv => [sv]
  | _ => []

/-- Upstream sessions still open after the client socket has closed and
the close handler has run. -/
def orphanedAfterClientClose (r1 r2 : Option Nat) : List Nat :=
  let o := connectionSetup r1 r2
  (openedSessions o).filter fun s => s ∉ closeHandlerCloses o

/-- Messages sent to the client during setup: when both connects succeed,
the second session's `onopen` callback sends the `status` envelope and the
end of the handler sends the full-store `trips_update` snapshot; on either
connect failure nothing is sent (the socket is closed, or the handler
aborts before reaching the snapshot send). -/
def setupMessages (r1 r2 : Option Nat) (collectedTrips : List TripArgs) :
    List ServerMsg :=
  match connectionSetup r1 r2 with
  | SetupOutcome.ready _ _ =>
    [ServerMsg.status "Connected to Gemini",
     ServerMsg.tripsUpdate collectedTrips]
  | _ => []

/-! ## Client-message handler (`ws.on('message')` in `src/server.ts`) -/

/-- The realtime chunk forwarded to the upstream session. -/
structure RealtimeChunk where
  mimeType : String
  data : String
deriving DecidableEq, Repr

/-- A successfully parsed client envelope, by its `type` tag. -/
inductive ParsedMsg
  | audio (data : String)
  | start
  | other
deriving DecidableEq, Repr

/-- Result of `JSON.parse` on the incoming frame. -/
inductive ParseResult
  | ok (m : ParsedMsg)
  | jsonError
deriving DecidableEq, Repr

/-- What one run of the message handler does to the session. -/
inductive HandlerOutcome
  | forwardedAudio (chunk : RealtimeChunk)
  | noAction
  | caughtLogged (message : String)
  | sessionTerminated
deriving DecidableEq, Repr

/-- The `ws.on('message')` handler: parse, dispatch on `type`, forward
audio upstream; the whole body is in a `try` whose `catch` logs and
returns, so every failure (bad JSON, upstream send rejection) yields
`caughtLogged` and never `sessionTerminated`. -/
def handleClientMessage
    (sendUpstream : RealtimeChunk → Except String Unit)
    (raw : ParseResult) : HandlerOutcome :=
  match raw with
  | ParseResult.jsonError =>
    HandlerOutcome.caughtLogged "Error processing client message"
  | ParseResult.ok (ParsedMsg.audio d) =>
    let chunk : RealtimeChunk := { mimeType := "audio/pcm;rate=16000", data := d }
    match sendUpstream chunk with
    | Except.ok _ => HandlerOutcome.forwardedAudio chunk
    | Except.error _ =>
      HandlerOutcome.caughtLogged "Error processing client message"
  | ParseResult.ok ParsedMsg.start => HandlerOutcome.noAction
  | ParseResult.ok ParsedMsg.other => HandlerOutcome.noAction

/-! ## PCM16 codec (`src/public/app.js`)

Samples are rationals (exact arithmetic standing for the JS number
computations); bytes are naturals in `[0, 256)`.  The encoder is
`processor.onaudioprocess`: clamp to `[-1, 1]`, scale negatives by
`0x8000` and non-negatives by `0x7FFF`, store into an `Int16Array`
(truncation toward zero, then wrap to 16 bits), and serialize the
underlying buffer little-endian.  The decoder is the start of
`playNextAudio`: view the bytes as an `Int16Array` (throws when the byte
length is odd) and divide each sample by `32768`. -/

/-- Truncation toward zero, as JS `ToIntegerOrInfinity`. -/
def truncQ (q : ℚ) : ℤ := if q < 0 then ⌈q⌉ else ⌊q⌋

/-- JS `ToInt16`: wrap an integer into `[-32768, 32768)`. -/
def toInt16Wrap (n : ℤ) : ℤ :=
  let m := n % 65536
  if m < 32768 then m else m - 65536

/-- `Math.max(-1, Math.min(1, s))`. -/
def clampSample (s : ℚ) : ℚ := max (-1) (min 1 s)

/-- `pcm16[i] = s < 0 ? s * 0x8000 : s * 0x7FFF` after clamping, with the
`Int16Array` element conversion applied. -/
def encodeSample (s : ℚ) : ℤ :=
  let c := clampSample s
  toInt16Wrap (truncQ (if c < 0 then c * 32768 else c * 32767))

/-- The two little-endian bytes of an `Int16Array` element. -/
def int16ToBytesLE (v : ℤ) : List Nat :=
  let u := (v % 65536).toNat
  [u % 256, u / 256]

/-- Reassemble one signed 16-bit little-endian sample from two bytes. -/
def bytesToInt16LE (lo hi : Nat) : ℤ :=
  let u := lo % 256 + 256 * (hi % 256)
  if u < 32768 then (u : ℤ) else (u : ℤ) - 65536

/-- The capture path of `processor.onaudioprocess`: encode every sample
and serialize the `Int16Array` buffer to bytes (the binary string that is
then base64-encoded for transport). -/
def captureToPCM : List ℚ → List Nat
  | [] => []
  | s :: rest => int16ToBytesLE (encodeSample s) ++ captureToPCM rest

/-- `new Int16Array(bytes.buffer)`: defined only when the byte length is
even (an odd length makes the constructor throw a `RangeError`). -/
def int16ViewLE : List Nat → Option (List ℤ)
  | [] => some []
  | [_] => none
  | lo :: hi :: rest =>
    (int16ViewLE rest).map fun vs => bytesToInt16LE lo hi :: vs

/-- The sample-decode step of `playNextAudio`: view the decoded bytes as
signed 16-bit little-endian samples and rescale each by `1 / 32768`,
yielding the `Float32Array` copied into the playback buffer. -/
def decodeAudioChunk (bytes : List Nat) : Option (List ℚ) :=
  (int16ViewLE bytes).map fun vs => vs.map fun (v : ℤ) => (v : ℚ) / 32768

/-- Modelled from the Web Audio API contract consumed by
`audioContext.createBuffer(1, float32.length, 24000)`: `createBuffer`
throws `NotSupportedError` when the requested frame count is zero, and
otherwise yields the single-channel buffer holding the samples. -/
def createBufferMono (float32 : List ℚ) : Option (List ℚ) :=
  if float32.length = 0 then none else some float32

/-- The full playback decode path of `playNextAudio`: `Int16Array` view,
rescale by `1 / 32768`, then `createBuffer`.  `none` means the chunk's
playback fails with a thrown exception. -/
def playbackDecodePath (bytes : List Nat) : Option (List ℚ) :=
  (decodeAudioChunk bytes).bind createBufferMono

/-! ## Microphone send guard (`processor.onaudioprocess`) -/

/-- Client-to-server JSON envelopes. -/
inductive ClientEnvelope
  | audio (data : List Nat)
  | start
deriving DecidableEq, Repr

/-- `processor.onaudioprocess`: returns early (dropping the frame, with no
send attempt) unless `isRecording` is set and the socket is `OPEN`;
otherwise encodes the captured samples and sends the `audio` envelope. -/
def onAudioProcess (isRecording : Bool) (readyState : ReadyState)
    (inputData : List ℚ) : Option ClientEnvelope :=
  if isRecording = false ∨ readyState ≠ ReadyState.OPEN then none
  else some (ClientEnvelope.audio (captureToPCM inputData))

/-! ## Playback queue (`audioQueue` / `playNextAudio` in `src/public/app.js`)

The browser event loop runs each handler to completion, so the queue
evolves by atomic steps: the `audio` branch of `ws.onmessage` pushes a
chunk and calls `playNextAudio`; a source's `onended` callback clears
`isPlaying` and calls `playNextAudio`.  `activeSources` counts buffer
sources for which `source.start()` has run but `onended` has not yet
fired. -/

structure PlaybackState where
  audioQueue : List String
  isPlaying : Bool
  activeSources : Nat
  playingChunk : Option String
deriving DecidableEq, Repr

/-- The initial client state: empty queue, nothing playing. -/
def initPlayback : PlaybackState := ⟨[], false, 0, none⟩

/-- `playNextAudio`: returns immediately when something is already playing
or the queue is empty; otherwise shifts one chunk, marks it playing, and
starts a new buffer source. -/
def playNextAudio (st : PlaybackState) : PlaybackState :=
  if st.isPlaying then st
  else
    match st.audioQueue with
    | [] => st
    | c :: rest =>
      { audioQueue := rest, isPlaying := true,
        activeSources := st.activeSources + 1, playingChunk := some c }

/-- The `audio` branch of `ws.onmessage`: `audioQueue.push(data);
playNextAudio()`. -/
def enqueueAudio (st : PlaybackState) (d : String) : PlaybackState :=
  playNextAudio { st with audioQueue := st.audioQueue ++ [d] }

/-- `source.onended`: the finished source is gone, `isPlaying` is
cleared, and `playNextAudio` runs again. -/
def onSourceEnded (st : PlaybackState) : PlaybackState :=
  playNextAudio
    { st with isPlaying := false, activeSources := st.activeSources - 1,
              playingChunk := none }

/-- One atomic event-loop step of the playback machinery.  `onended` can
only fire for a source that was started and has not yet ended. -/
inductive PlaybackStep : PlaybackState → PlaybackState → Prop
  | enqueue (st : PlaybackState) (d : String) :
      PlaybackStep st (enqueueAudio st d)
  | ended (st : PlaybackState) (h : st.activeSources ≠ 0) :
      PlaybackStep st (onSourceEnded st)

/-- States reachable from the initial client state. -/
def PlaybackReachable (st : PlaybackState) : Prop :=
  Relation.ReflTransGen PlaybackStep initPlayback st

/-- The inductive invariant: `activeSources` tracks `isPlaying`. -/
def PlaybackInv (st : PlaybackState) : Prop :=
  st.activeSources = if st.isPlaying then 1 else 0

/-- A concrete reachable state with a chunk playing: one `audio` message
arrived at the idle client. -/
def reachedPlayingState : PlaybackState := enqueueAudio initPlayback "a"

end FlowVoice

namespace FlowVoice

/-- C2 counterexample: a `saveTrip` invocation with every required field
missing is nevertheless appended to the trip store, refuting "an
invocation missing any required field is not appended". -/
theorem saveTrip_missing_fields_still_appended :
    requiredPresent emptyTripArgs = false ∧
    (processCalls [⟨"saveTrip", "call1", emptyTripArgs⟩] []).1 =
      [emptyTripArgs] := by
  decide

/-- C2 (amended): the tool-call branch appends the arguments of every
invocation named `saveTrip` unconditionally, in order — presence of the
required fields is not checked at the relay layer. -/
theorem saveTrip_appends_unconditionally (calls : List FunctionCall)
    (trips : List TripArgs) :
    (processCalls calls trips).1 =
      trips ++ (calls.filter fun c => c.name = "saveTrip").map
        FunctionCall.args := by
  induction calls generalizing trips with
  | nil => simp [processCalls]
  | cons c rest ih =>
    by_cases h : c.name = "saveTrip" <;>
      simp [processCalls, h, pushTrip, ih, List.append_assoc]

/-- C8: a batch of tool calls none of which is named `saveTrip` leaves the
trip store unchanged, broadcasts nothing, and produces no response (hence
no error is surfaced upstream for them). -/
theorem unknown_tool_ignored (calls : List FunctionCall)
    (trips : List TripArgs) (h : ∀ c ∈ calls, c.name ≠ "saveTrip") :
    processCalls calls trips = (trips, [], []) := by
  induction calls with
  | nil => rfl
  | cons c rest ih =>
    have hc : c.name ≠ "saveTrip" := h c (List.mem_cons_self c rest)
    have hr : ∀ x ∈ rest, x.name ≠ "saveTrip" := fun x hx =>
      h x (List.mem_cons_of_mem c hx)
    simp [processCalls, hc, ih hr]

/-- C8 witness: a concrete non-`saveTrip` call is ignored. -/
theorem unknown_tool_ignored_witness :
    processCalls [⟨"webSearch", "id9", emptyTripArgs⟩] [emptyTripArgs] =
      ([emptyTripArgs], [], []) :=
  unknown_tool_ignored [⟨"webSearch", "id9", emptyTripArgs⟩]
    [emptyTripArgs] (by decide)

/-- C4: after appending one record, broadcasting delivers exactly one
successful send of the identical full-store `trips_update` envelope to
each open socket, in client order, and produces no send (hence no error)
for any non-open socket. -/
theorem broadcast_fanout_open_sockets (clients : List ClientSocket)
    (trips : List TripArgs) (r : TripArgs) :
    broadcastTrips clients (pushTrip trips r) =
      (clients.filter fun c => c.readyState = ReadyState.OPEN).map
        fun c =>
          Except.ok (c.sockId, ServerMsg.tripsUpdate (pushTrip trips r)) := by
  induction clients with
  | nil => rfl
  | cons c rest ih =>
    by_cases h : c.readyState = ReadyState.OPEN <;>
      simp [broadcastTrips, wsSendChecked, h] <;>
      simpa [broadcastTrips] using ih

/-- C1: when both upstream connect calls succeed (sessions 1 then 2), the
connection handler has opened two upstream sessions for the one client,
and after the client socket closes the close handler closes only the
second, leaving the first upstream session orphaned. -/
theorem second_connect_orphans_first_session :
    connectionSetup (some 1) (some 2) = SetupOutcome.ready [1, 2] 2 ∧
    closeHandlerCloses (connectionSetup (some 1) (some 2)) = [2] ∧
    orphanedAfterClientClose (some 1) (some 2) = [1] := by
  decide

/-- C9 counterexample: a client whose connection is accepted but whose
first upstream connect fails is never sent a `trips_update` envelope,
refuting "every newly accepted client connection is immediately sent a
trips_update". -/
theorem no_snapshot_on_failed_setup :
    setupMessages none none [emptyTripArgs] = [] ∧
    ServerMsg.tripsUpdate [emptyTripArgs] ∉
      setupMessages none none [emptyTripArgs] := by
  decide

/-- C9 (amended): every accepted connection whose upstream setup succeeds
is sent, at the end of setup and before any client message or tool
invocation is processed, the `status` envelope followed by a
`trips_update` envelope carrying the full current trip store. -/
theorem snapshot_sent_on_successful_setup (s1 s2 : Nat)
    (trips : List TripArgs) :
    setupMessages (some s1) (some s2) trips =
      [ServerMsg.status "Connected to Gemini",
       ServerMsg.tripsUpdate trips] := by
  rfl

/-- C6: the client-message handler never terminates the session, whatever
the parse result and whatever the upstream send does; bad JSON and a
failing upstream send are both caught and logged. -/
theorem bad_message_never_terminates_session
    (sendUpstream : RealtimeChunk → Except String Unit)
    (raw : ParseResult) (e d : String) :
    handleClientMessage sendUpstream raw ≠
        HandlerOutcome.sessionTerminated ∧
    handleClientMessage sendUpstream ParseResult.jsonError =
        HandlerOutcome.caughtLogged "Error processing client message" ∧
    handleClientMessage (fun _ => Except.error e)
        (ParseResult.ok (ParsedMsg.audio d)) =
        HandlerOutcome.caughtLogged "Error processing client message" := by
  refine ⟨?_, rfl, rfl⟩
  match raw with
  | ParseResult.jsonError => simp [handleClientMessage]
  | ParseResult.ok (ParsedMsg.audio d2) =>
    simp only [handleClientMessage]
    cases sendUpstream { mimeType := "audio/pcm;rate=16000", data := d2 } <;>
      simp
  | ParseResult.ok ParsedMsg.start => simp [handleClientMessage]
  | ParseResult.ok ParsedMsg.other => simp [handleClientMessage]

/-- C7 counterexample: with the socket `OPEN` but `isRecording` false the
capture callback sends nothing, refuting "transmits the envelope if and
only if the WebSocket is open". -/
theorem audio_dropped_when_not_recording :
    onAudioProcess false ReadyState.OPEN [0] = none := by
  decide

/-- C7 (amended): the capture callback transmits the `audio` envelope
carrying the encoded frame exactly when `isRecording` is set and the
socket is `OPEN`; in every other state the frame is silently dropped
(no send attempt, no buffering, no exception). -/
theorem audio_sent_iff_recording_and_open (isRecording : Bool)
    (readyState : ReadyState) (inputData : List ℚ) :
    onAudioProcess isRecording readyState inputData =
      if isRecording = true ∧ readyState = ReadyState.OPEN then
        some (ClientEnvelope.audio (captureToPCM inputData))
      else none := by
  cases isRecording <;> by_cases h : readyState = ReadyState.OPEN <;>
    simp [onAudioProcess, h]

/-- The `Int16Array` view succeeds with `length / 2` samples exactly on
even byte lengths. -/
theorem int16ViewLE_length (bytes : List Nat) :
    (int16ViewLE bytes).map List.length =
      if bytes.length % 2 = 0 then some (bytes.length / 2) else none := by
  induction bytes using int16ViewLE.induct with
  | case1 => rfl
  | case2 b => rfl
  | case3 lo hi rest ih =>
    simp only [int16ViewLE, List.length_cons]
    by_cases h : rest.length % 2 = 0
    · have h2 : (rest.length + 1 + 1) % 2 = 0 := by omega
      rw [if_pos h] at ih
      rw [if_pos h2]
      cases hv : int16ViewLE rest with
      | none => rw [hv] at ih; simp at ih
      | some vs =>
        rw [hv] at ih
        have ih2 : vs.length = rest.length / 2 := by simpa using ih
        show some (vs.length + 1) = some ((rest.length + 1 + 1) / 2)
        simp only [Option.some.injEq]
        omega
    · have h2 : ¬ (rest.length + 1 + 1) % 2 = 0 := by omega
      rw [if_neg h] at ih
      rw [if_neg h2]
      cases hv : int16ViewLE rest with
      | none => simp [hv]
      | some vs => rw [hv] at ih; simp at ih

/-- The sample-decode step (view plus rescale) is defined exactly on even
byte lengths, producing `length / 2` samples. -/
lemma decodeAudioChunk_length (bytes : List Nat) :
    (decodeAudioChunk bytes).map List.length =
      if bytes.length % 2 = 0 then some (bytes.length / 2) else none := by
  have h := int16ViewLE_length bytes
  unfold decodeAudioChunk
  cases hv : int16ViewLE bytes with
  | none => rw [hv] at h; simpa using h
  | some vs =>
    rw [hv] at h
    have h2 : some vs.length =
        if bytes.length % 2 = 0 then some (bytes.length / 2) else none := h
    show some ((vs.map fun (v : ℤ) => (v : ℚ) / 32768).length) = _
    rw [List.length_map]
    exact h2

/-- C10 counterexample: the empty inbound payload has even base64-decoded
byte length, and the `Int16Array` view succeeds on it, yet the decode path
fails — `createBuffer(1, 0, 24000)` throws — refuting "for every
even-length payload, constructing the Int16Array view and the audio
buffer succeeds". -/
theorem createBuffer_throws_on_empty_payload :
    ([] : List Nat).length % 2 = 0 ∧
    decodeAudioChunk [] = some [] ∧
    playbackDecodePath [] = none := by
  decide

/-- C10 (amended): the playback decode path is total exactly on payloads
whose base64-decoded byte length is even and nonzero, yielding
`length / 2` samples; an odd length makes the `Int16Array` construction
throw, and the even zero length passes the view but makes `createBuffer`
throw, so playback of that chunk fails either way. -/
theorem decode_total_iff_even_nonzero (bytes : List Nat) :
    (playbackDecodePath bytes).map List.length =
      if bytes.length % 2 = 0 ∧ bytes.length ≠ 0 then
        some (bytes.length / 2)
      else none := by
  have h := decodeAudioChunk_length bytes
  unfold playbackDecodePath
  cases hd : decodeAudioChunk bytes with
  | none =>
    rw [hd] at h
    by_cases he : bytes.length % 2 = 0
    · rw [if_pos he] at h
      exact absurd h (by simp)
    · rw [if_neg fun hc => he hc.1]
      rfl
  | some out =>
    rw [hd] at h
    by_cases he : bytes.length % 2 = 0
    · rw [if_pos he] at h
      have hlen : out.length = bytes.length / 2 := by simpa using h
      by_cases hz : bytes.length = 0
      · have hout : out = [] := by
          have h0 : out.length = 0 := by omega
          exact List.length_eq_zero.mp h0
        subst hout
        rw [if_neg fun hc => hc.2 hz]
        rfl
      · rw [if_pos ⟨he, hz⟩]
        have hnz : ¬ out.length = 0 := by omega
        show (createBufferMono out).map List.length = some (bytes.length / 2)
        unfold createBufferMono
        rw [if_neg hnz]
        simpa using hlen
    · rw [if_neg he] at h
      exact absurd h (by simp)

/-- `toInt16Wrap` is the identity on values already in the signed 16-bit
range. -/
lemma toInt16Wrap_id {n : ℤ} (h1 : -32768 ≤ n) (h2 : n ≤ 32767) :
    toInt16Wrap n = n := by
  show (if n % 65536 < 32768 then n % 65536 else n % 65536 - 65536) = n
  split <;> omega

/-- Serializing a signed 16-bit value little-endian and reassembling the
two bytes gives the value back. -/
lemma bytes_roundtrip {v : ℤ} (h1 : -32768 ≤ v) (h2 : v ≤ 32767) :
    bytesToInt16LE ((v % 65536).toNat % 256) ((v % 65536).toNat / 256) = v := by
  show (if (v % 65536).toNat % 256 % 256 +
            256 * ((v % 65536).toNat / 256 % 256) < 32768
        then (((v % 65536).toNat % 256 % 256 +
            256 * ((v % 65536).toNat / 256 % 256) : ℕ) : ℤ)
        else (((v % 65536).toNat % 256 % 256 +
            256 * ((v % 65536).toNat / 256 % 256) : ℕ) : ℤ) - 65536) = v
  split <;> omega

/-- Viewing the two bytes of an in-range sample followed by further bytes
recovers the sample at the head. -/
lemma int16ViewLE_cons {v : ℤ} (h1 : -32768 ≤ v) (h2 : v ≤ 32767)
    (rest : List Nat) :
    int16ViewLE (int16ToBytesLE v ++ rest) =
      (int16ViewLE rest).map fun vs => v :: vs := by
  show int16ViewLE ((v % 65536).toNat % 256 :: (v % 65536).toNat / 256 :: rest) = _
  rw [int16ViewLE, bytes_roundtrip h1 h2]

/-- The clamp really lands in `[-1, 1]`. -/
lemma clampSample_bounds (s : ℚ) : -1 ≤ clampSample s ∧ clampSample s ≤ 1 := by
  unfold clampSample
  exact ⟨le_max_left _ _, max_le (by norm_num) (min_le_left _ _)⟩

/-- For a clamped value `c`, the encoded sample is an in-range signed
16-bit value whose decode (division by 32768) is within `2 / 32768` of
`c`: negatives are scaled and divided by the same factor (error below one
quantum), while non-negatives are scaled by 32767 but divided by 32768,
adding up to one more quantum of error near `c = 1`. -/
lemma encodeClamped_spec (c : ℚ) (hc1 : -1 ≤ c) (hc2 : c ≤ 1) :
    -32768 ≤ toInt16Wrap (truncQ (if c < 0 then c * 32768 else c * 32767)) ∧
    toInt16Wrap (truncQ (if c < 0 then c * 32768 else c * 32767)) ≤ 32767 ∧
    |((toInt16Wrap (truncQ (if c < 0 then c * 32768 else c * 32767)) : ℤ) : ℚ)
        / 32768 - c| ≤ 2 / 32768 := by
  by_cases hneg : c < 0
  · rw [if_pos hneg]
    have hprod : c * 32768 < 0 := by nlinarith
    unfold truncQ
    rw [if_pos hprod]
    have hceil1 : (c * 32768 : ℚ) ≤ ((⌈c * 32768⌉ : ℤ) : ℚ) := Int.le_ceil _
    have hceil2 : ((⌈c * 32768⌉ : ℤ) : ℚ) < c * 32768 + 1 :=
      Int.ceil_lt_add_one _
    have hb1 : -32768 ≤ ⌈c * 32768⌉ := by
      have h4 : ((-32768 : ℤ) : ℚ) ≤ ((⌈c * 32768⌉ : ℤ) : ℚ) := by
        push_cast; nlinarith
      exact_mod_cast h4
    have hb2 : ⌈c * 32768⌉ ≤ 32767 := by
      have h4 : ((⌈c * 32768⌉ : ℤ) : ℚ) < ((32768 : ℤ) : ℚ) := by
        push_cast; nlinarith
      have h5 : (⌈c * 32768⌉ : ℤ) < 32768 := by exact_mod_cast h4
      omega
    rw [toInt16Wrap_id hb1 hb2]
    refine ⟨hb1, hb2, ?_⟩
    rw [abs_le]
    constructor <;> nlinarith
  · rw [if_neg hneg]
    push_neg at hneg
    have hprod : ¬ (c * 32767 : ℚ) < 0 := by nlinarith
    unfold truncQ
    rw [if_neg hprod]
    have hfl1 : ((⌊c * 32767⌋ : ℤ) : ℚ) ≤ c * 32767 := Int.floor_le _
    have hfl2 : (c * 32767 : ℚ) - 1 < ((⌊c * 32767⌋ : ℤ) : ℚ) :=
      Int.sub_one_lt_floor _
    have hb1 : -32768 ≤ ⌊c * 32767⌋ := by
      have h4 : ((-32768 : ℤ) : ℚ) < ((⌊c * 32767⌋ : ℤ) : ℚ) := by
        push_cast; nlinarith
      have h5 : ((-32768 : ℤ)) < ⌊c * 32767⌋ := by exact_mod_cast h4
      omega
    have hb2 : ⌊c * 32767⌋ ≤ 32767 := by
      have h4 : ((⌊c * 32767⌋ : ℤ) : ℚ) ≤ ((32767 : ℤ) : ℚ) := by
        push_cast; nlinarith
      exact_mod_cast h4
    rw [toInt16Wrap_id hb1 hb2]
    refine ⟨hb1, hb2, ?_⟩
    rw [abs_le]
    constructor <;> nlinarith

/-- Per-sample encode specification: range and quantization error. -/
lemma encodeSample_spec (s : ℚ) :
    -32768 ≤ encodeSample s ∧ encodeSample s ≤ 32767 ∧
    |((encodeSample s : ℤ) : ℚ) / 32768 - clampSample s| ≤ 2 / 32768 := by
  obtain ⟨hc1, hc2⟩ := clampSample_bounds s
  exact encodeClamped_spec (clampSample s) hc1 hc2

/-- C3 (amended): encoding a float sample array to 16-bit PCM and decoding
it back always succeeds and reproduces each clamped value within
`± 2 / 32768` (not `± 1 / 32768`: the 32767-versus-32768 scale asymmetry
contributes up to one extra quantum for non-negative samples). -/
theorem pcm_roundtrip_within_two_lsb (samples : List ℚ) :
    ∃ out, decodeAudioChunk (captureToPCM samples) = some out ∧
      List.Forall₂ (fun s d => |d - clampSample s| ≤ 2 / 32768) samples out := by
  induction samples with
  | nil => exact ⟨[], rfl, List.Forall₂.nil⟩
  | cons s rest ih =>
    obtain ⟨out, hout, hfa⟩ := ih
    obtain ⟨hb1, hb2, herr⟩ := encodeSample_spec s
    have hview : int16ViewLE (captureToPCM (s :: rest)) =
        (int16ViewLE (captureToPCM rest)).map fun vs => encodeSample s :: vs := by
      show int16ViewLE (int16ToBytesLE (encodeSample s) ++ captureToPCM rest) = _
      exact int16ViewLE_cons hb1 hb2 _
    unfold decodeAudioChunk at hout ⊢
    cases hv : int16ViewLE (captureToPCM rest) with
    | none => rw [hv] at hout; simp at hout
    | some vs =>
      rw [hv] at hout
      have hout2 : (vs.map fun (v : ℤ) => (v : ℚ) / 32768) = out := by
        simpa using hout
      rw [hview, hv]
      refine ⟨((encodeSample s : ℤ) : ℚ) / 32768 :: out, ?_,
        List.Forall₂.cons herr hfa⟩
      show some ((encodeSample s :: vs).map fun (v : ℤ) => (v : ℚ) / 32768) =
        some (((encodeSample s : ℤ) : ℚ) / 32768 :: out)
      rw [List.map_cons, hout2]

/-- C3 counterexample: the sample `9999 / 10000` round-trips to
`32763 / 32768`, an error strictly greater than `1 / 32768`, refuting the
claimed `± 1 / 32768` bound. -/
theorem pcm_roundtrip_exceeds_one_lsb :
    decodeAudioChunk (captureToPCM [(9999 : ℚ) / 10000]) =
      some [(32763 : ℚ) / 32768] ∧
    1 / 32768 < |(32763 : ℚ) / 32768 - clampSample ((9999 : ℚ) / 10000)| := by
  have hc : clampSample ((9999 : ℚ) / 10000) = 9999 / 10000 := by
    unfold clampSample
    rw [min_eq_right (by norm_num), max_eq_right (by norm_num)]
  have hfl : (⌊(9999 : ℚ) / 10000 * 32767⌋ : ℤ) = 32763 := by
    rw [Int.floor_eq_iff]
    constructor <;> norm_num
  have henc : encodeSample ((9999 : ℚ) / 10000) = 32763 := by
    show toInt16Wrap (truncQ (if clampSample ((9999 : ℚ) / 10000) < 0
        then clampSample ((9999 : ℚ) / 10000) * 32768
        else clampSample ((9999 : ℚ) / 10000) * 32767)) = 32763
    rw [hc, if_neg (by norm_num)]
    unfold truncQ
    rw [if_neg (by norm_num), hfl]
    decide
  constructor
  · have hbytes : captureToPCM [(9999 : ℚ) / 10000] = [251, 127] := by
      show int16ToBytesLE (encodeSample ((9999 : ℚ) / 10000)) ++
          captureToPCM [] = [251, 127]
      rw [henc]
      decide
    rw [hbytes]
    have hb16 : bytesToInt16LE 251 127 = 32763 := by decide
    show some [((bytesToInt16LE 251 127 : ℤ) : ℚ) / 32768] =
      some [(32763 : ℚ) / 32768]
    rw [hb16]
    norm_num
  · rw [hc]
    rw [abs_of_neg (by norm_num)]
    norm_num

/-- The playback invariant holds initially and is preserved by every
event-loop step. -/
lemma playbackInv_step {st st2 : PlaybackState} (hinv : PlaybackInv st)
    (hstep : PlaybackStep st st2) : PlaybackInv st2 := by
  cases hstep with
  | enqueue d =>
    unfold PlaybackInv at hinv ⊢
    unfold enqueueAudio playNextAudio
    by_cases hp : st.isPlaying
    · simpa [hp] using hinv
    · simp only [Bool.not_eq_true] at hp
      rw [hp] at hinv
      simp only [if_neg Bool.false_ne_true] at hinv
      cases hq : st.audioQueue with
      | nil => simp [hp, hq, hinv]
      | cons c cs => simp [hp, hq, hinv]
  | ended hne =>
    unfold PlaybackInv at hinv ⊢
    unfold onSourceEnded playNextAudio
    have hp : st.isPlaying = true := by
      cases hb : st.isPlaying with
      | true => rfl
      | false => rw [hb] at hinv; simp at hinv; exact absurd hinv hne
    rw [hp] at hinv
    simp only [if_pos rfl] at hinv
    cases hq : st.audioQueue with
    | nil => simp [hq, hinv]
    | cons c cs => simp [hq, hinv]

/-- Every reachable playback state satisfies the invariant. -/
lemma playbackReachable_inv {st : PlaybackState}
    (h : PlaybackReachable st) : PlaybackInv st := by
  unfold PlaybackReachable at h
  induction h with
  | refl => rfl
  | tail hsteps hstep ih => exact playbackInv_step ih hstep

/-- C5: in every reachable playback state at most one buffer source is
active, enqueueing keeps it so, and enqueueing while a chunk is playing
only appends to the queue — the current chunk is neither preempted nor
restarted. -/
theorem playback_at_most_one_active (st : PlaybackState) (d : String)
    (h : PlaybackReachable st) :
    st.activeSources ≤ 1 ∧
    (enqueueAudio st d).activeSources ≤ 1 ∧
    (st.isPlaying = true →
      enqueueAudio st d =
        { st with audioQueue := st.audioQueue ++ [d] }) := by
  have hinv := playbackReachable_inv h
  have hinv2 :=
    playbackInv_step hinv (PlaybackStep.enqueue st d)
  unfold PlaybackInv at hinv hinv2
  refine ⟨?_, ?_, ?_⟩
  · split at hinv <;> omega
  · split at hinv2 <;> omega
  · intro hp
    unfold enqueueAudio playNextAudio
    simp [hp]

/-- C5 witness: the single-active-source bound and the no-preemption
property, evaluated at the concrete reachable playing state. -/
theorem playback_at_most_one_active_witness :
    reachedPlayingState.activeSources ≤ 1 ∧
    (enqueueAudio reachedPlayingState "b").activeSources ≤ 1 ∧
    (reachedPlayingState.isPlaying = true →
      enqueueAudio reachedPlayingState "b" =
        { reachedPlayingState with
            audioQueue := reachedPlayingState.audioQueue ++ ["b"] }) :=
  playback_at_most_one_active reachedPlayingState "b"
    (Relation.ReflTransGen.single (PlaybackStep.enqueue initPlayback "a"))

end FlowVoice
